import Mathlib

/-!
# Verification of the IEC 62056-21 Mode C meter-suite session/framing engine

Shallow embedding of the Rust sources under `src-tauri/src` (codec in
`serial/iec62056.rs`, I/O helpers in `commands/io.rs`, connection state in
`commands/state.rs`, operation facade in `commands/mod.rs`).

Bytes are modelled as `Nat` (the Rust code never overflows a `u8`: XOR of
bytes below 256 stays below 256).  Rust strings are modelled as `List Char`,
with Rust *byte* indices (lengths, `str::find` offsets, slices) computed
through the UTF-8 width `Char.utf8Size` of each character; see the
identification-parsing section.
-/

namespace OmniMeter

/-! ## Control characters (`serial/iec62056.rs`, `mod control`) -/

def SOH : Nat := 0x01
def STX : Nat := 0x02
def ETX : Nat := 0x03
def EOT : Nat := 0x04
def ACK : Nat := 0x06
def NAK : Nat := 0x15
def CR : Nat := 0x0D
def LF : Nat := 0x0A

/-! ## Codec (`serial/iec62056.rs`) -/

/-- `calculate_bcc`: XOR of all bytes (`data.iter().fold(0u8, |acc, &b| acc ^ b)`). -/
def calculate_bcc (data : List Nat) : Nat :=
  data.foldl (fun acc b => acc ^^^ b) 0

/-- `baud_rate_from_char` from `serial/iec62056.rs`. -/
def baud_rate_from_char (c : Char) : Option Nat :=
  match c with
  | '0' => some 300
  | '1' => some 600
  | '2' => some 1200
  | '3' => some 2400
  | '4' => some 4800
  | '5' => some 9600
  | '6' => some 19200
  | _ => none

/-- `char_from_baud_rate` from `serial/iec62056.rs`. -/
def char_from_baud_rate (baud : Nat) : Option Char :=
  match baud with
  | 300 => some '0'
  | 600 => some '1'
  | 1200 => some '2'
  | 2400 => some '3'
  | 4800 => some '4'
  | 9600 => some '5'
  | 19200 => some '6'
  | _ => none

/-- `build_password_command`: `SOH 'P' '1' STX '(' pwd ')' ETX BCC`,
with `bcc = calculate_bcc(&msg[3..])`. -/
def build_password_command (password : List Nat) : List Nat :=
  let msg := [SOH, 0x50, 0x31, STX, 0x28] ++ password ++ [0x29, ETX]
  msg ++ [calculate_bcc (msg.drop 3)]

/-- `build_read_command`: `SOH 'R' '2' STX obis '(' ')' ETX BCC`,
with `bcc = calculate_bcc(&msg[3..])`. -/
def build_read_command (obis : List Nat) : List Nat :=
  let msg := [SOH, 0x52, 0x32, STX] ++ obis ++ [0x28, 0x29, ETX]
  msg ++ [calculate_bcc (msg.drop 3)]

/-- `build_write_command`: `SOH 'W' '2' STX obis '(' value ')' ETX BCC`,
with `bcc = calculate_bcc(&msg[3..])`. -/
def build_write_command (obis value : List Nat) : List Nat :=
  let msg := [SOH, 0x57, 0x32, STX] ++ obis ++ [0x28] ++ value ++ [0x29, ETX]
  msg ++ [calculate_bcc (msg.drop 3)]

/-- `build_break_command`: `SOH 'B' '0' ETX BCC`,
with `bcc = calculate_bcc(&msg[3..])`. -/
def build_break_command : List Nat :=
  let msg := [SOH, 0x42, 0x30, ETX]
  msg ++ [calculate_bcc (msg.drop 3)]

/-! ## Initial baud resolution (`commands/io.rs`, `resolve_initial_bauds`) -/

/-- `resolve_initial_bauds(connection_type, configured_baud)`: the Rust
`match` on the connection-type string has arms `"optical"`, `"auto"` and a
catch-all `_` (serial/rs485/rs232/other). -/
def resolve_initial_bauds (connection_type : String) (configured_baud : Nat) : List Nat :=
  if connection_type = "optical" then [300]
  else if connection_type = "auto" then
    if configured_baud > 0 then [configured_baud] else [9600, 300]
  else
    if configured_baud > 0 then [configured_baud] else [9600, 300, 19200]

/-! ## Inbound BCC verification (`commands/io.rs`, `verify_bcc`) -/

inductive VerifyBccResult where
  /-- `Err("STX bulunamadı")` -/
  | errNoStx
  /-- `Err("ETX bulunamadı")` -/
  | errNoEtx
  /-- `Err("BCC byte'ı yok")` -/
  | errNoBcc
  /-- the Rust slice `&data[stx_idx + 1..=etx_idx]` has inverted bounds -/
  | panicked
  /-- `Ok(calculated_bcc == received_bcc)` -/
  | result (ok : Bool)
deriving DecidableEq, Repr

/-- `verify_bcc` from `commands/io.rs`: find the first STX and the first ETX,
require a byte after the ETX, and compare that byte with
`calculate_bcc(&data[stx_idx + 1..=etx_idx])`.  The slice panics if the
first ETX precedes the first STX. -/
def verify_bcc (data : List Nat) : VerifyBccResult :=
  match data.findIdx? (fun b => b == STX) with
  | none => .errNoStx
  | some stx_idx =>
    match data.findIdx? (fun b => b == ETX) with
    | none => .errNoEtx
    | some etx_idx =>
      if etx_idx + 1 ≥ data.length then .errNoBcc
      else
        let received_bcc := data.getD (etx_idx + 1) 0
        if stx_idx + 1 ≤ etx_idx + 1 then
          .result (calculate_bcc ((data.drop (stx_idx + 1)).take (etx_idx + 1 - (stx_idx + 1)))
            == received_bcc)
        else .panicked

/-! ## Delimiter-framed read loops

The read loops consume a serial port; we model the environment as the list
of successful `port.read` outcomes (each a nonempty chunk of bytes).
`Ok(0)` results and `TimedOut` errors only sleep and re-loop, so they are
dropped from the trace; exhausting the list models the idle timeout. -/

/-- The ETX scan shared by `read_until_etx` (`commands/io.rs`) and the inline
read loops of `read_full`, `read_short` and `read_obis_batch`
(`commands/mod.rs`): `for i in 0..total_read-1 { if data_buf[i] == ETX &&
i + 1 < total_read { found_etx = true } }`, guarded by `total_read >= 2`. -/
def foundEtxScan (buf : List Nat) : Bool :=
  if buf.length ≥ 2 then
    (List.range (buf.length - 1)).any
      (fun i => buf.getD i 0 == ETX && decide (i + 1 < buf.length))
  else false

/-- The fixed-buffer read loop of `read_until_etx` (`commands/io.rs`) and of
the inline loops of `read_full` / `read_short` / `read_obis_batch`
(`commands/mod.rs`): append each arriving chunk into the remaining buffer
space, stop with `found_etx = true` when `foundEtxScan` fires, stop with
`found_etx = false` when the buffer is full or the chunks run out (idle
timeout). Returns the filled buffer and the `found_etx` flag. -/
def read_until_etx_loop (buffer_size : Nat) (acc : List Nat) :
    List (List Nat) → List Nat × Bool
  | [] => (acc, false)
  | c :: rest =>
    let c' := c.take (buffer_size - acc.length)
    if c'.isEmpty then read_until_etx_loop buffer_size acc rest
    else
      let acc' := acc ++ c'
      if foundEtxScan acc' then (acc', true)
      else if acc'.length ≥ buffer_size then (acc', false)
      else read_until_etx_loop buffer_size acc' rest

/-- The growable-buffer read loop of `read_load_profile`
(`commands/mod.rs`): append each chunk, then scan only the newly received
range for ETX (`for i in (old_len..data_buf.len()).rev()`), stopping as soon
as an ETX is seen anywhere in the new chunk. -/
def load_profile_read_loop (acc : List Nat) :
    List (List Nat) → List Nat × Bool
  | [] => (acc, false)
  | c :: rest =>
    if c.isEmpty then load_profile_read_loop acc rest
    else
      let acc' := acc ++ c
      if c.any (fun b => b == ETX) then (acc', true)
      else load_profile_read_loop acc' rest

/-! ## Identification parsing (`serial/iec62056.rs`, `parse_identification`)

A Rust `&str` is modelled as its sequence of characters (`List Char`, the
same scalar values as Rust `char`); no information is lost because `&str`
is always valid UTF-8.  Rust *byte* indices (`str::len`, `str::find`,
slices such as `content[..3]`) are modelled through the UTF-8 byte width
`Char.utf8Size` of each character: `utf8Len` is `str::len`, `utf8Find` is
`str::find`, and `utf8ByteSlice cs a b` is the slice `&s[a..b]`, returning
`none` exactly where Rust panics (inverted or out-of-range bounds, or an
index that is not a character boundary).  `Char.isWhitespace` in Lean
covers only ASCII whitespace, so Rust `char::is_whitespace` (the Unicode
White_Space property) is transcribed explicitly. -/

structure MeterIdent where
  manufacturer : List Char
  baud_char : Char
  generation : List Char
  edas_id : List Char
  model : List Char
  max_baud_rate : Nat
deriving DecidableEq, Repr

inductive ParseIdentResult where
  | panicked
  | ok (r : Option MeterIdent)
deriving DecidableEq, Repr

/-- Rust `char::is_whitespace`: the Unicode White_Space property
(U+0009-U+000D, U+0020, U+0085, U+00A0, U+1680, U+2000-U+200A, U+2028,
U+2029, U+202F, U+205F, U+3000). -/
def rustIsWhitespace (c : Char) : Bool :=
  (0x09 ≤ c.val && c.val ≤ 0x0D) || c.val = 0x20 || c.val = 0x85 ||
  c.val = 0xA0 || c.val = 0x1680 || (0x2000 ≤ c.val && c.val ≤ 0x200A) ||
  c.val = 0x2028 || c.val = 0x2029 || c.val = 0x202F || c.val = 0x205F ||
  c.val = 0x3000

/-- Rust `str::trim` (leading and trailing `char::is_whitespace` removed). -/
def rustTrim (cs : List Char) : List Char :=
  ((cs.dropWhile rustIsWhitespace).reverse.dropWhile rustIsWhitespace).reverse

/-- Rust `str::len`: the number of UTF-8 bytes. -/
def utf8Len (cs : List Char) : Nat :=
  (cs.map Char.utf8Size).sum

/-- Drop the first `n` *bytes* of the UTF-8 encoding: `none` when `n`
overruns the string or falls inside a multi-byte character (not a char
boundary), `some` of the remaining characters otherwise. -/
def utf8DropBytes : Nat → List Char → Option (List Char)
  | 0, cs => some cs
  | _+1, [] => none
  | n+1, c :: cs =>
    if c.utf8Size ≤ n + 1 then utf8DropBytes (n + 1 - c.utf8Size) cs else none

/-- Take the first `n` *bytes* of the UTF-8 encoding, with the same
boundary behaviour as `utf8DropBytes`. -/
def utf8TakeBytes : Nat → List Char → Option (List Char)
  | 0, _ => some []
  | _+1, [] => none
  | n+1, c :: cs =>
    if c.utf8Size ≤ n + 1 then (utf8TakeBytes (n + 1 - c.utf8Size) cs).map (c :: ·)
    else none

/-- Rust `&s[a..b]` on byte indices: `none` models the panic (inverted
bounds `a > b`, `b` past the end, or an index inside a multi-byte
character). -/
def utf8ByteSlice (cs : List Char) (a b : Nat) : Option (List Char) :=
  if a ≤ b then (utf8DropBytes a cs).bind (fun t => utf8TakeBytes (b - a) t)
  else none

/-- Rust `str::find(c)`: the *byte* index of the first occurrence. -/
def utf8Find (target : Char) : List Char → Option Nat
  | [] => none
  | c :: cs =>
    if c = target then some 0 else (utf8Find target cs).map (· + c.utf8Size)

/-- Rust `str::is_char_boundary` for `n ≤ len`: byte index `n` is in range
and on a character boundary exactly when dropping `n` bytes succeeds. -/
def isUtf8Boundary (cs : List Char) (n : Nat) : Bool :=
  (utf8DropBytes n cs).isSome

/-- `content` in `parse_identification`:
`response.trim_start_matches('/').trim()`. -/
def identContent (response : List Char) : List Char :=
  rustTrim (response.dropWhile (fun c => c == '/'))

/-- `after_gen` in `parse_identification`: `&content[gen_end + 1..]`
(empty when there is no `'>'`; only used when `utf8Find '>'` succeeds, in
which case the slice always succeeds because `'>'` is a one-byte
character). -/
def identAfterGen (response : List Char) : List Char :=
  match utf8Find '>' (identContent response) with
  | some gen_end =>
    (utf8ByteSlice (identContent response) (gen_end + 1)
      (utf8Len (identContent response))).getD []
  | none => []

/-- `parse_identification` from `serial/iec62056.rs`, byte-faithful: every
Rust byte slice goes through `utf8ByteSlice`, whose `none` (= Rust panic)
maps to `.panicked` -- including `content[..3]` when byte 3 is not a
character boundary of a non-ASCII input.  `content.chars().nth(3)` is the
fourth *character*, `content[3]?`. -/
def parse_identification (response : List Char) : ParseIdentResult :=
  if response.head? = some '/' then
    let content := identContent response
    if utf8Len content < 4 then .ok none
    else
      match utf8ByteSlice content 0 3 with
      | none => .panicked
      | some manufacturer =>
        match content[3]? with
        | none => .ok none
        | some baud_char =>
          match baud_rate_from_char baud_char with
          | none => .ok none
          | some max_baud =>
            match utf8Find '<' content with
            | none => .ok none
            | some gen_start =>
              match utf8Find '>' content with
              | none => .ok none
              | some gen_end =>
                match utf8ByteSlice content (gen_start + 1) gen_end with
                | none => .panicked
                | some generation =>
                  match utf8ByteSlice content (gen_end + 1) (utf8Len content) with
                  | none => .panicked
                  | some after_gen =>
                    match utf8Find '(' after_gen with
                    | none => .ok none
                    | some model_start =>
                      match utf8ByteSlice after_gen 0 model_start with
                      | none => .panicked
                      | some edas_id =>
                        match utf8Find ')' after_gen with
                        | none => .ok none
                        | some model_end =>
                          match utf8ByteSlice after_gen (model_start + 1) model_end with
                          | none => .panicked
                          | some model =>
                            .ok (some
                              { manufacturer := manufacturer
                                baud_char := baud_char
                                generation := generation
                                edas_id := edas_id
                                model := model
                                max_baud_rate := max_baud })
  else .ok none

/-! ## Connection state machine (`commands/state.rs`, `commands/mod.rs`)

`ConnectionManager` holds `port : Option<Box<dyn SerialPort>>`,
`params : Option<ConnectionParams>`, `identity : Option<MeterIdentity>`,
`connected`, `in_programming_mode`, `negotiated_baud`.  The model keeps
presence flags for the three `Option` fields; the I/O outcomes of each
facade operation are inputs of the transition function. -/

structure ConnState where
  portOpen : Bool
  hasParams : Bool
  hasIdentity : Bool
  connected : Bool
  inProgrammingMode : Bool
  negotiatedBaud : Nat
deriving DecidableEq, Repr

/-- `ConnectionManager::new()`. -/
def ConnState.initial : ConnState :=
  { portOpen := false, hasParams := false, hasIdentity := false,
    connected := false, inProgrammingMode := false, negotiatedBaud := 300 }

/-- `ConnectionManager::disconnect()`: clears every field and resets the
negotiated baud to 300. -/
def ConnState.disconnectAll (_ : ConnState) : ConnState :=
  ConnState.initial

/-- `ConnectionManager::is_connected()`. -/
def ConnState.isConn (s : ConnState) : Bool :=
  s.connected && s.portOpen

/-- Outcome of the probe/handshake/read portion of an atomic operation,
from the point of view of the stored state (every failure path of an
operation leaves the manager exactly as the operation's early mutations
left it). -/
inductive OpOutcome where
  | failed
  | succeeded
deriving DecidableEq, Repr

/-- `connect` (`commands/mod.rs`): break+`disconnect()` when
`is_connected()`, then probe/handshake; on success store port, params,
identity, `connected = true` and the negotiated target baud (all failure
returns leave the manager untouched after the initial cleanup). -/
def connectOp (s : ConnState) (o : OpOutcome) (targetBaud : Nat) : ConnState :=
  let s1 := if s.isConn then s.disconnectAll else s
  match o with
  | .failed => s1
  | .succeeded =>
    { s1 with
        portOpen := true
        hasParams := true
        hasIdentity := true
        connected := true
        negotiatedBaud := targetBaud }

/-- `disconnect` (`commands/mod.rs`): optional break, then `disconnect()`. -/
def disconnectOp (s : ConnState) : ConnState :=
  s.disconnectAll

/-- `read_full` (`commands/mod.rs`): no stored params is an early error;
with a live port (`port.is_some() && negotiated_baud > 0`) the port is
taken (`port = None`, `connected = false`) and the handshake skipped,
otherwise any stale port is cleared via `disconnect()` and a fresh atomic
probe is run.  The success epilogue stores the identity and sets
`connected = false`, `port = None`; `in_programming_mode` is never
touched. -/
def readFullOp (s : ConnState) (o : OpOutcome) : ConnState :=
  if s.hasParams = false then s
  else if s.portOpen && decide (s.negotiatedBaud > 0) then
    let s2 := { s with portOpen := false, connected := false }
    match o with
    | .failed => s2
    | .succeeded => { s2 with hasIdentity := true, connected := false, portOpen := false }
  else
    let s2 := if s.portOpen then s.disconnectAll else s
    match o with
    | .failed => s2
    | .succeeded => { s2 with hasIdentity := true, connected := false, portOpen := false }

/-- `read_short` (`commands/mod.rs`): no stored params is an early error;
otherwise the existing connection is always closed (`disconnect()`) and a
fresh atomic session is run; the epilogue stores the identity and sets
`connected = false`, `port = None`. -/
def readShortOp (s : ConnState) (o : OpOutcome) : ConnState :=
  if s.hasParams = false then s
  else
    let s2 := s.disconnectAll
    match o with
    | .failed => s2
    | .succeeded => { s2 with hasIdentity := true, connected := false, portOpen := false }

/-- `read_obis_batch` (`commands/mod.rs`): an empty code list or missing
params is an early error; otherwise `disconnect()`, fresh atomic Mode 0
session; the epilogue sets `connected = false`, `port = None`,
`in_programming_mode = false` and stores no identity. -/
def readObisBatchOp (s : ConnState) (emptyCodes : Bool) (o : OpOutcome) : ConnState :=
  if emptyCodes then s
  else if s.hasParams = false then s
  else
    let s2 := s.disconnectAll
    match o with
    | .failed => s2
    | .succeeded =>
      { s2 with connected := false, portOpen := false, inProgrammingMode := false }

/-- `authenticate` (`commands/mod.rs`): an invalid password (not 8 ASCII
digits) or missing params is an early error; otherwise `disconnect()`,
fresh atomic Mode 1 session.  Only an ACK response stores the port with
`connected = true`, `in_programming_mode = true` and the target baud;
every other outcome drops the port, leaving the cleared state. -/
def authenticateOp (s : ConnState) (validPwd : Bool) (o : OpOutcome)
    (targetBaud : Nat) : ConnState :=
  if validPwd = false then s
  else if s.hasParams = false then s
  else
    let s2 := s.disconnectAll
    match o with
    | .failed => s2
    | .succeeded =>
      { s2 with
          portOpen := true
          connected := true
          inProgrammingMode := true
          negotiatedBaud := targetBaud }

/-- `end_session` (`commands/mod.rs`): requires `connected`; sends break,
then sets `port = None`, `connected = false`,
`in_programming_mode = false` (params/identity/baud retained). -/
def endSessionOp (s : ConnState) : ConnState :=
  if s.connected = false then s
  else { s with portOpen := false, connected := false, inProgrammingMode := false }

/-- `read_load_profile` (`commands/mod.rs`): missing params is an early
error; otherwise `disconnect()`, fresh atomic Mode 1 session; the epilogue
sets `connected = false`, `port = None`, `in_programming_mode = false`. -/
def readLoadProfileOp (s : ConnState) (o : OpOutcome) : ConnState :=
  if s.hasParams = false then s
  else
    let s2 := s.disconnectAll
    match o with
    | .failed => s2
    | .succeeded =>
      { s2 with connected := false, portOpen := false, inProgrammingMode := false }

/-- One facade operation together with its environment inputs. -/
inductive FacadeOp where
  | connectF (o : OpOutcome) (targetBaud : Nat)
  | disconnectF
  | readFullF (o : OpOutcome)
  | readShortF (o : OpOutcome)
  | readObisBatchF (emptyCodes : Bool) (o : OpOutcome)
  | authenticateF (validPwd : Bool) (o : OpOutcome) (targetBaud : Nat)
  | endSessionF
  | readLoadProfileF (o : OpOutcome)
deriving DecidableEq, Repr

def applyFacadeOp (s : ConnState) : FacadeOp → ConnState
  | .connectF o t => connectOp s o t
  | .disconnectF => disconnectOp s
  | .readFullF o => readFullOp s o
  | .readShortF o => readShortOp s o
  | .readObisBatchF e o => readObisBatchOp s e o
  | .authenticateF v o t => authenticateOp s v o t
  | .endSessionF => endSessionOp s
  | .readLoadProfileF o => readLoadProfileOp s o

/-- State of the connection manager after a sequence of facade operations,
starting from the process-start state `ConnState.initial`. -/
def runFacadeOps (ops : List FacadeOp) : ConnState :=
  ops.foldl applyFacadeOp ConnState.initial

/-! ## Authentication response dispatch (`commands/mod.rs`, `authenticate`,
final `port.read(&mut buf)` on the password response) -/

/-- Result of the single `port.read` on the password response. -/
inductive PwResponse where
  /-- `Ok(n)` with `n > 0`: first byte `b`, remaining bytes `tail`. -/
  | recv (b : Nat) (tail : List Nat)
  /-- `Ok(0)`. -/
  | emptyRead
  /-- `Err` of kind `TimedOut`. -/
  | timedOut
  /-- any other `Err`. -/
  | ioErr
deriving DecidableEq, Repr

/-- Does `String::from_utf8_lossy(bytes)` contain `"B0"`?  ASCII bytes are
never absorbed into multi-byte sequences by lossy decoding, so this holds
exactly when the bytes `0x42 0x30` are adjacent in the input. -/
def containsB0 : List Nat → Bool
  | b1 :: b2 :: rest => (b1 == 0x42 && b2 == 0x30) || containsB0 (b2 :: rest)
  | _ => false

inductive AuthOutcome where
  /-- `Ok(true)`: password accepted, port stored in programming mode. -/
  | authenticated
  /-- `Ok(false)` after NAK: password rejected, port dropped. -/
  | rejectedNak
  /-- `Ok(false)` after `SOH` + `"B0"`: meter break, meter-locked warning. -/
  | rejectedBreakLocked
  /-- `Ok(false)` after `SOH` without `"B0"`. -/
  | rejectedSohOther
  /-- `Err("Unexpected response from meter: 0x..")` naming byte `b`. -/
  | protocolError (b : Nat)
  /-- `Err("Empty response from meter")`. -/
  | emptyResponse
  /-- `Err("Timeout waiting for password response")`. -/
  | timeoutResponse
  /-- `Err("Read error: ..")`. -/
  | readError
deriving DecidableEq, Repr

/-- The outcome dispatch on the password response in `authenticate`. -/
def authRespond : PwResponse → AuthOutcome
  | .recv b tail =>
    if b = ACK then .authenticated
    else if b = NAK then .rejectedNak
    else if b = SOH then
      if containsB0 tail then .rejectedBreakLocked else .rejectedSohOther
    else .protocolError b
  | .emptyRead => .emptyResponse
  | .timedOut => .timeoutResponse
  | .ioErr => .readError

/-- In `authenticate`, the port is stored back into the manager (retained)
exactly on the ACK path; every other path `drop`s it. -/
def authPortRetained (r : PwResponse) : Bool :=
  authRespond r == .authenticated

/-! ## write_obis and sync_time (`commands/mod.rs`) -/

/-- Result of the single-byte read after a W2 write. -/
inductive WriteResponse where
  /-- `Ok(1)` with the byte `ACK`. -/
  | ackByte
  /-- `Ok(1)` with the byte `NAK`. -/
  | nakByte
  /-- anything else (other byte, other length, error). -/
  | other
deriving DecidableEq, Repr

inductive WriteResult where
  | ok
  /-- `Err("Not connected to meter")` -/
  | errNotConnected
  /-- `Err("Meter is not in programming mode")` -/
  | errNotProgramming
  /-- `Err("Port not available")` -/
  | errNoPort
  /-- `Err("Write rejected by meter (NAK)")` -/
  | errRejected
  /-- `Err("Invalid response from meter")` -/
  | errInvalid
deriving DecidableEq, Repr

/-- `write_obis` (`commands/mod.rs`): requires `connected`,
`in_programming_mode` and an available port; ACK → ok, NAK → rejected,
anything else → invalid response.  The manager state is not mutated. -/
def write_obis_model (s : ConnState) (r : WriteResponse) : WriteResult :=
  if s.connected = false then .errNotConnected
  else if s.inProgrammingMode = false then .errNotProgramming
  else if s.portOpen = false then .errNoPort
  else
    match r with
    | .ackByte => .ok
    | .nakByte => .errRejected
    | .other => .errInvalid

/-- Local-time snapshot taken by `sync_time` via `chrono::Local::now()`.
`isoDow` models chrono's `%u` formatting item: the ISO 8601 weekday number,
1 = Monday … 7 = Sunday. -/
structure NowTime where
  year : Nat
  month : Nat
  day : Nat
  hour : Nat
  minute : Nat
  second : Nat
  isoDow : Nat
deriving DecidableEq, Repr

/-- chrono zero-padded two-digit field (`%H`, `%M`, `%S`, `%y`, `%m`, `%d`). -/
def pad2 (n : Nat) : List Char :=
  if n < 10 then '0' :: (toString n).toList else (toString n).toList

/-- `now.format("%H:%M:%S")`. -/
def fmtTime (t : NowTime) : List Char :=
  pad2 t.hour ++ [':'] ++ pad2 t.minute ++ [':'] ++ pad2 t.second

/-- `now.format("%y-%m-%d")` (`%y` is the year modulo 100). -/
def fmtDate (t : NowTime) : List Char :=
  pad2 (t.year % 100) ++ ['-'] ++ pad2 t.month ++ ['-'] ++ pad2 t.day

/-- `now.format("%u")`: ISO weekday number, 1 = Monday. -/
def fmtDow (t : NowTime) : List Char :=
  (toString t.isoDow).toList

/-- `sync_time` (`commands/mod.rs`): requires `connected` and
`in_programming_mode`; then `write_obis("0.9.1", HH:MM:SS)?`,
`write_obis("0.9.2", yy-mm-dd)?`, `write_obis("0.9.5", dow)?`.
Returns the list of `(code, value)` writes actually issued (in order) and
whether the whole operation succeeded; the `?` operator makes any failed
write abort before the next one is issued. -/
def sync_time_model (s : ConnState) (t : NowTime) (r1 r2 r3 : WriteResponse) :
    List (List Char × List Char) × Bool :=
  if s.connected = false then ([], false)
  else if s.inProgrammingMode = false then ([], false)
  else
    let w1 := ("0.9.1".toList, fmtTime t)
    match write_obis_model s r1 with
    | .ok =>
      let w2 := ("0.9.2".toList, fmtDate t)
      match write_obis_model s r2 with
      | .ok =>
        let w3 := ("0.9.5".toList, fmtDow t)
        match write_obis_model s r3 with
        | .ok => ([w1, w2, w3], true)
        | _ => ([w1, w2, w3], false)
      | _ => ([w1, w2], false)
    | _ => ([w1], false)

/-- The invariant of claim C1: whenever the stored port is none, the state
is not connected and not in programming mode. -/
def portNoneInvariant (s : ConnState) : Prop :=
  s.portOpen = false → s.connected = false ∧ s.inProgrammingMode = false

/-- Strengthened inductive invariant: `portNoneInvariant` together with the
fact that programming mode only ever holds with an open, connected port and
cleared params (`authenticate` reads the params into locals and then
`disconnect()`s before storing the programming-mode port back). -/
def strongSessionInvariant (s : ConnState) : Prop :=
  portNoneInvariant s ∧
  (s.inProgrammingMode = true →
    s.portOpen = true ∧ s.connected = true ∧ s.hasParams = false)

/-! ## C7: the initial baud probe table -/

/-- **C7.** The initial baud probe sequence is exactly the table of §4.D:
optical always probes `[300]`; auto probes `[configured]` when the configured
baud is positive and `[9600, 300]` when it is 0; every other connection type
probes `[configured]` when positive and `[9600, 300, 19200]` when 0. -/
theorem C7_resolve_initial_bauds_table (ct : String) (b : Nat) :
    (resolve_initial_bauds "optical" b = [300]) ∧
    (b > 0 → resolve_initial_bauds "auto" b = [b]) ∧
    (resolve_initial_bauds "auto" 0 = [9600, 300]) ∧
    (ct ≠ "optical" → ct ≠ "auto" → b > 0 → resolve_initial_bauds ct b = [b]) ∧
    (ct ≠ "optical" → ct ≠ "auto" → resolve_initial_bauds ct 0 = [9600, 300, 19200]) := by
  refine ⟨rfl, ?_, rfl, ?_, ?_⟩
  · intro hb
    simp [resolve_initial_bauds, hb]
  · intro h1 h2 hb
    simp [resolve_initial_bauds, h1, h2, hb]
  · intro h1 h2
    simp [resolve_initial_bauds, h1, h2]

/-- Witness for `C7_resolve_initial_bauds_table` at `ct = "rs485"`, `b = 2400`. -/
theorem C7_resolve_initial_bauds_table_witness :
    resolve_initial_bauds "rs485" 2400 = [2400] ∧
    resolve_initial_bauds "rs485" 0 = [9600, 300, 19200] := by
  have h := C7_resolve_initial_bauds_table "rs485" 2400
  exact ⟨h.2.2.2.1 (by decide) (by decide) (by decide), h.2.2.2.2 (by decide) (by decide)⟩

/-! ## C8: the baud map is invertible on `'0'..'6'` -/

/-- **C8.** For every character in the set `{'0'..'6'}`, mapping it to its
baud rate with `baud_rate_from_char` and the rate back with
`char_from_baud_rate` returns the original character. -/
theorem C8_baud_char_roundtrip (c : Char)
    (h : c ∈ ['0', '1', '2', '3', '4', '5', '6']) :
    (baud_rate_from_char c).bind char_from_baud_rate = some c := by
  fin_cases h <;> rfl

/-- Witness for `C8_baud_char_roundtrip` at `c = '5'`. -/
theorem C8_baud_char_roundtrip_witness :
    (baud_rate_from_char '5').bind char_from_baud_rate = some '5' :=
  C8_baud_char_roundtrip '5' (by decide)

/-! ## C2: which region the command-frame BCC covers -/

/-- **C2 (counterexample).** The break frame is `[SOH, 'B', '0', ETX, BCC]`
with `BCC = 0x03`, but the XOR of the region starting immediately after SOH
through ETX inclusive (`['B', '0', ETX]`, the region the claim asserts) is
`0x71 ≠ 0x03`: the command-id bytes are *not* covered by the BCC. -/
theorem C2_counterexample :
    build_break_command = [SOH, 0x42, 0x30, ETX, 0x03] ∧
    calculate_bcc (build_break_command.dropLast.drop 1) = 0x71 ∧
    build_break_command.getLast? ≠
      some (calculate_bcc (build_break_command.dropLast.drop 1)) := by
  decide

/-- **C2 (amended).** Every builder computes the BCC over `msg[3..]`: for
the password, read and write frames that is the region from STX through ETX
inclusive (the two command-id bytes are *excluded*, STX is *included*); for
the break frame `SOH 'B' '0' ETX` it is the ETX alone. -/
theorem C2_amended (password obis value : List Nat) :
    (build_password_command password).getLast? =
      some (calculate_bcc ([STX, 0x28] ++ password ++ [0x29, ETX])) ∧
    (build_read_command obis).getLast? =
      some (calculate_bcc ([STX] ++ obis ++ [0x28, 0x29, ETX])) ∧
    (build_write_command obis value).getLast? =
      some (calculate_bcc ([STX] ++ obis ++ [0x28] ++ value ++ [0x29, ETX])) ∧
    build_break_command.getLast? = some (calculate_bcc [ETX]) := by
  refine ⟨?_, ?_, ?_, by decide⟩
  · simp only [build_password_command]
    rw [List.getLast?_concat]
    simp [STX]
  · simp only [build_read_command]
    rw [List.getLast?_concat]
    simp [STX]
  · simp only [build_write_command]
    rw [List.getLast?_concat]
    simp [STX]

/-! ## C3: which span inbound BCC verification covers -/

/-- **C3 (counterexample).** On the buffer `[STX, 0x41, ETX, 0x42]` the code
accepts (`Ok(true)`): the received BCC `0x42` equals the XOR of `0x41, ETX`
— the span *after* STX through ETX.  The XOR of the span from STX through
ETX inclusive is `0x40 ≠ 0x42`, so verification does not compare against
the STX-inclusive span the claim asserts. -/
theorem C3_counterexample :
    verify_bcc [STX, 0x41, ETX, 0x42] = .result true ∧
    calculate_bcc [STX, 0x41, ETX] ≠ 0x42 := by
  decide

/-- `findIdx?` over an append whose left part has no hit. -/
theorem findIdx?_append_left_none {α : Type} {p : α → Bool} (l₁ l₂ : List α)
    (h : l₁.findIdx? p = none) :
    (l₁ ++ l₂).findIdx? p = (l₂.findIdx? p).map (· + l₁.length) := by
  simp [List.findIdx?_append, h]

/-- `findIdx?` past a head that does not match. -/
theorem findIdx?_cons_false {α : Type} {p : α → Bool} (x : α) (xs : List α)
    (h : p x = false) :
    (x :: xs).findIdx? p = (xs.findIdx? p).map (· + 1) := by
  simp [List.findIdx?_cons, h]

/-- **C3 (amended).** For every received buffer whose first STX precedes its
first ETX with at least one byte after that ETX, `verify_bcc` compares the
byte after the ETX against the XOR of the span starting immediately *after*
STX through ETX inclusive (STX itself is excluded). -/
theorem C3_amended (pre mid : List Nat) (b : Nat) (rest : List Nat)
    (hpre_stx : STX ∉ pre) (hpre_etx : ETX ∉ pre) (hmid_etx : ETX ∉ mid) :
    verify_bcc (pre ++ (STX :: (mid ++ ETX :: b :: rest))) =
      .result (calculate_bcc (mid ++ [ETX]) == b) := by
  have hnone : ∀ (v : Nat) (l : List Nat), v ∉ l →
      l.findIdx? (fun x => x == v) = none := by
    intro v l hv
    rw [List.findIdx?_eq_none_iff]
    intro x hx
    exact beq_eq_false_iff_ne.mpr (fun h => hv (h ▸ hx))
  have hstx : (pre ++ (STX :: (mid ++ ETX :: b :: rest))).findIdx?
      (fun x => x == STX) = some pre.length := by
    rw [findIdx?_append_left_none _ _ (hnone _ _ hpre_stx)]
    simp [List.findIdx?_cons]
  have hetx : (pre ++ (STX :: (mid ++ ETX :: b :: rest))).findIdx?
      (fun x => x == ETX) = some (mid.length + 1 + pre.length) := by
    rw [findIdx?_append_left_none _ _ (hnone _ _ hpre_etx),
      findIdx?_cons_false _ _ (by decide),
      findIdx?_append_left_none _ _ (hnone _ _ hmid_etx)]
    have hhd : (ETX :: b :: rest).findIdx? (fun x => x == ETX) = some 0 := by
      simp [List.findIdx?_cons]
    rw [hhd]
    simp [Nat.add_comm, Nat.add_assoc, Nat.add_left_comm]
  have hlen : (pre ++ (STX :: (mid ++ ETX :: b :: rest))).length =
      pre.length + mid.length + rest.length + 3 := by
    simp
    omega
  rw [verify_bcc, hstx, hetx]
  dsimp only
  rw [if_neg (by omega), if_pos (by omega)]
  have hdrop : (pre ++ (STX :: (mid ++ ETX :: b :: rest))).drop (pre.length + 1) =
      mid ++ ETX :: b :: rest := by
    have h1 : pre ++ (STX :: (mid ++ ETX :: b :: rest)) =
        (pre ++ [STX]) ++ (mid ++ ETX :: b :: rest) := by simp
    rw [h1, List.drop_left' (by simp)]
  have harith : mid.length + 1 + pre.length + 1 - (pre.length + 1) =
      mid.length + 1 := by omega
  rw [harith, hdrop]
  have hspan : (mid ++ ETX :: b :: rest).take (mid.length + 1) = mid ++ [ETX] := by
    have h2 : mid ++ ETX :: b :: rest = (mid ++ [ETX]) ++ b :: rest := by simp
    rw [h2, List.take_left' (by simp)]
  rw [hspan]
  have hrecv : (pre ++ (STX :: (mid ++ ETX :: b :: rest))).getD
      (mid.length + 1 + pre.length + 1) 0 = b := by
    have h1 : pre ++ (STX :: (mid ++ ETX :: b :: rest)) =
        (pre ++ (STX :: (mid ++ [ETX]))) ++ b :: rest := by simp
    have h2 : (pre ++ (STX :: (mid ++ [ETX]))).length =
        mid.length + 1 + pre.length + 1 := by
      simp
      omega
    rw [List.getD_eq_getElem?_getD, h1, List.getElem?_append_right (by omega)]
    rw [h2]
    simp
  rw [hrecv]

/-- Witness for `C3_amended` at `pre = [0x41]`, `mid = [0x30]`,
`b = 0x33`, `rest = [0x07]`. -/
theorem C3_amended_witness :
    verify_bcc ([0x41] ++ (STX :: ([0x30] ++ ETX :: 0x33 :: [0x07]))) =
      .result (calculate_bcc ([0x30] ++ [ETX]) == 0x33) :=
  C3_amended [0x41] [0x30] 0x33 [0x07] (by decide) (by decide) (by decide)

/-! ## C4: the "ETX plus one byte" stop condition of the read loops -/

/-- **C4 (counterexample).** The load-profile read loop stops on ETX alone:
with the single arriving chunk `[STX, 0x41, ETX]` it exits reporting
`found_etx = true` although no byte follows the ETX in the filled buffer. -/
theorem C4_counterexample :
    load_profile_read_loop [] [[STX, 0x41, ETX]] = ([STX, 0x41, ETX], true) ∧
    ETX ∉ ([STX, 0x41, ETX] : List Nat).dropLast := by
  decide

/-- If the shared ETX scan fires, the buffer holds an ETX that is not its
last byte. -/
theorem foundEtxScan_mem_dropLast (buf : List Nat) (h : foundEtxScan buf = true) :
    ETX ∈ buf.dropLast := by
  rw [foundEtxScan] at h
  split at h
  · rw [List.any_eq_true] at h
    obtain ⟨i, hi, hp⟩ := h
    rw [List.mem_range] at hi
    rw [Bool.and_eq_true, beq_iff_eq] at hp
    have hil : i < buf.length := by omega
    have hbuf : buf.getD i 0 = ETX := hp.1
    rw [List.dropLast_eq_take]
    rw [List.getD_eq_getElem?_getD, List.getElem?_eq_getElem hil] at hbuf
    simp only [Option.getD_some] at hbuf
    have hsome : (buf.take (buf.length - 1))[i]? = some ETX := by
      rw [List.getElem?_take_of_lt hi, List.getElem?_eq_getElem hil, hbuf]
    exact List.getElem?_mem hsome
  · exact absurd h (by simp)

/-- **C4 (amended).** `read_until_etx` and the inline read loops of
`read_full`, `read_short` and `read_obis_batch` never exit reporting
`found_etx = true` unless the filled buffer contains a further byte after an
ETX byte; the load-profile read loop of `read_load_profile`, by contrast,
stops as soon as ETX appears in the newly received chunk, with no byte
after it required (see `C4_counterexample`). -/
theorem C4_amended (buffer_size : Nat) (acc : List Nat) (chunks : List (List Nat))
    (h : (read_until_etx_loop buffer_size acc chunks).2 = true) :
    ETX ∈ (read_until_etx_loop buffer_size acc chunks).1.dropLast := by
  induction chunks generalizing acc with
  | nil => rw [read_until_etx_loop] at h ⊢; exact absurd h (by simp)
  | cons c rest ih =>
    rw [read_until_etx_loop] at h ⊢
    by_cases h1 : (c.take (buffer_size - acc.length)).isEmpty
    · rw [if_pos h1] at h ⊢
      exact ih _ h
    · rw [if_neg h1] at h ⊢
      by_cases h2 : foundEtxScan (acc ++ c.take (buffer_size - acc.length))
      · rw [if_pos h2] at h ⊢
        exact foundEtxScan_mem_dropLast _ h2
      · rw [if_neg h2] at h ⊢
        by_cases h3 : (acc ++ c.take (buffer_size - acc.length)).length ≥ buffer_size
        · rw [if_pos h3] at h
          exact absurd h (by simp)
        · rw [if_neg h3] at h ⊢
          exact ih _ h

/-- Witness for `C4_amended` at `chunks = [[0x31, STX], [ETX], [0x39]]`. -/
theorem C4_amended_witness :
    ETX ∈ (read_until_etx_loop 8192 [] [[0x31, STX], [ETX], [0x39]]).1.dropLast :=
  C4_amended 8192 [] [[0x31, STX], [ETX], [0x39]] (by decide)

/-! ## UTF-8 byte-index lemmas

Facts about the byte-index model needed to locate the panic sites of
`parse_identification`: byte offsets returned by `utf8Find` always lie on
character boundaries, so the slices between them fail only on inverted
bounds; the `content[..3]` slice, by contrast, can fail on a non-boundary
index. -/

theorem utf8Len_cons (c : Char) (cs : List Char) :
    utf8Len (c :: cs) = c.utf8Size + utf8Len cs := by
  simp [utf8Len]

theorem utf8Len_append (a b : List Char) :
    utf8Len (a ++ b) = utf8Len a + utf8Len b := by
  simp [utf8Len]

theorem utf8DropBytes_succ_cons (n : Nat) (c : Char) (cs : List Char) :
    utf8DropBytes (n + 1) (c :: cs) =
      if c.utf8Size ≤ n + 1 then utf8DropBytes (n + 1 - c.utf8Size) cs
      else none := rfl

theorem utf8TakeBytes_succ_cons (n : Nat) (c : Char) (cs : List Char) :
    utf8TakeBytes (n + 1) (c :: cs) =
      if c.utf8Size ≤ n + 1 then (utf8TakeBytes (n + 1 - c.utf8Size) cs).map (c :: ·)
      else none := rfl

theorem utf8DropBytes_zero (cs : List Char) : utf8DropBytes 0 cs = some cs := by
  cases cs <;> rfl

/-- When dropping `n` bytes succeeds, taking `n` bytes succeeds as well and
splits the string at that boundary. -/
theorem utf8DropBytes_spec (n : Nat) (cs t : List Char)
    (h : utf8DropBytes n cs = some t) :
    ∃ p, utf8TakeBytes n cs = some p ∧ p ++ t = cs ∧ utf8Len p = n := by
  induction cs generalizing n with
  | nil =>
    cases n with
    | zero =>
      refine ⟨[], rfl, ?_, rfl⟩
      simpa [utf8DropBytes] using h.symm
    | succ m => simp [utf8DropBytes] at h
  | cons c cs ih =>
    cases n with
    | zero =>
      refine ⟨[], rfl, ?_, rfl⟩
      simpa [utf8DropBytes] using h.symm
    | succ m =>
      rw [utf8DropBytes_succ_cons] at h
      by_cases hsz : c.utf8Size ≤ m + 1
      · rw [if_pos hsz] at h
        obtain ⟨p, hp1, hp2, hp3⟩ := ih _ h
        refine ⟨c :: p, ?_, by simp [hp2], ?_⟩
        · rw [utf8TakeBytes_succ_cons, if_pos hsz, hp1]
          rfl
        · rw [utf8Len_cons, hp3]
          omega
      · rw [if_neg hsz] at h
        exact absurd h (by simp)

/-- Dropping is compositional past an established boundary. -/
theorem utf8DropBytes_add (a b : Nat) (cs t : List Char)
    (h : utf8DropBytes a cs = some t) :
    utf8DropBytes (a + b) cs = utf8DropBytes b t := by
  induction cs generalizing a with
  | nil =>
    cases a with
    | zero =>
      obtain rfl : ([] : List Char) = t := by simpa [utf8DropBytes] using h.symm
      simp
    | succ m => simp [utf8DropBytes] at h
  | cons c cs ih =>
    cases a with
    | zero =>
      obtain rfl : c :: cs = t := by simpa [utf8DropBytes] using h
      simp
    | succ m =>
      rw [utf8DropBytes_succ_cons] at h
      by_cases hsz : c.utf8Size ≤ m + 1
      · rw [if_pos hsz] at h
        have harr : m + 1 + b = (m + b) + 1 := by omega
        rw [harr, utf8DropBytes_succ_cons, if_pos (by omega)]
        have harr2 : m + b + 1 - c.utf8Size = (m + 1 - c.utf8Size) + b := by omega
        rw [harr2]
        exact ih _ h
      · rw [if_neg hsz] at h
        exact absurd h (by simp)

/-- A byte offset returned by `utf8Find` is a character boundary, with the
target character right after it. -/
theorem utf8Find_drop (t : Char) (cs : List Char) (i : Nat)
    (h : utf8Find t cs = some i) :
    ∃ rest, utf8DropBytes i cs = some (t :: rest) := by
  induction cs generalizing i with
  | nil => simp [utf8Find] at h
  | cons c cs ih =>
    rw [utf8Find] at h
    by_cases hc : c = t
    · rw [if_pos hc] at h
      cases h
      exact ⟨cs, by simp [utf8DropBytes, hc]⟩
    · rw [if_neg hc] at h
      obtain ⟨j, hj, rfl⟩ : ∃ j, utf8Find t cs = some j ∧ j + c.utf8Size = i := by
        cases hfind : utf8Find t cs with
        | none => rw [hfind] at h; simp at h
        | some j =>
          rw [hfind] at h
          simp only [Option.map_some'] at h
          exact ⟨j, rfl, by injection h⟩
      have hpos := Char.utf8Size_pos c
      obtain ⟨rest, hrest⟩ := ih _ hj
      refine ⟨rest, ?_⟩
      have harr : j + c.utf8Size = (j + c.utf8Size - 1) + 1 := by omega
      rw [harr, utf8DropBytes_succ_cons, if_pos (by omega)]
      have harr2 : j + c.utf8Size - 1 + 1 - c.utf8Size = j := by omega
      rw [harr2]
      exact hrest

theorem utf8DropBytes_len (n : Nat) (cs t : List Char)
    (h : utf8DropBytes n cs = some t) : utf8Len cs = n + utf8Len t := by
  obtain ⟨p, _, hp2, hp3⟩ := utf8DropBytes_spec n cs t h
  rw [← hp2, utf8Len_append, hp3]

theorem utf8DropBytes_full (cs : List Char) :
    utf8DropBytes (utf8Len cs) cs = some [] := by
  induction cs with
  | nil => rfl
  | cons c cs ih =>
    have hpos := Char.utf8Size_pos c
    have h1 : utf8Len (c :: cs) = (c.utf8Size + utf8Len cs - 1) + 1 := by
      rw [utf8Len_cons]
      omega
    rw [h1, utf8DropBytes_succ_cons, if_pos (by omega)]
    have h2 : c.utf8Size + utf8Len cs - 1 + 1 - c.utf8Size = utf8Len cs := by omega
    rw [h2]
    exact ih

theorem utf8TakeBytes_of_drop (n : Nat) (cs t : List Char)
    (h : utf8DropBytes n cs = some t) : utf8TakeBytes n cs ≠ none := by
  obtain ⟨p, hp, _, _⟩ := utf8DropBytes_spec n cs t h
  simp [hp]

/-- Taking a positive number of bytes never yields the empty string. -/
theorem utf8TakeBytes_ne_nil (n : Nat) (hn : 0 < n) (cs m : List Char)
    (h : utf8TakeBytes n cs = some m) : m ≠ [] := by
  cases n with
  | zero => omega
  | succ k =>
    cases cs with
    | nil => simp [utf8TakeBytes] at h
    | cons c cs =>
      rw [utf8TakeBytes_succ_cons] at h
      by_cases hsz : c.utf8Size ≤ k + 1
      · rw [if_pos hsz] at h
        cases htail : utf8TakeBytes (k + 1 - c.utf8Size) cs with
        | none => rw [htail] at h; simp at h
        | some p =>
          rw [htail] at h
          simp only [Option.map_some'] at h
          obtain rfl : c :: p = m := by injection h
          simp
      · rw [if_neg hsz] at h
        simp at h

/-- The slice from just after a found one-byte character up to another
found byte offset succeeds whenever the bounds are not inverted. -/
theorem utf8ByteSlice_between_found (cs : List Char) (c₁ c₂ : Char)
    (i j : Nat) (h₁ : utf8Find c₁ cs = some i) (h₂ : utf8Find c₂ cs = some j)
    (hsz : c₁.utf8Size = 1) (hij : i + 1 ≤ j) :
    utf8ByteSlice cs (i + 1) j ≠ none := by
  obtain ⟨r1, hr1⟩ := utf8Find_drop c₁ cs i h₁
  have hdrop1 : utf8DropBytes (i + 1) cs = some r1 := by
    rw [utf8DropBytes_add i 1 cs (c₁ :: r1) hr1, utf8DropBytes_succ_cons,
      if_pos (by omega)]
    simp [hsz, utf8DropBytes]
  obtain ⟨r2, hr2⟩ := utf8Find_drop c₂ cs j h₂
  have hj : utf8DropBytes (j - (i + 1)) r1 = some (c₂ :: r2) := by
    have hcomp := utf8DropBytes_add (i + 1) (j - (i + 1)) cs r1 hdrop1
    have harr : i + 1 + (j - (i + 1)) = j := by omega
    rw [harr] at hcomp
    rw [← hcomp]
    exact hr2
  rw [utf8ByteSlice, if_pos hij, hdrop1]
  simpa using utf8TakeBytes_of_drop _ _ _ hj

/-- The tail slice from just after a found one-byte character to the end
of the string always succeeds. -/
theorem utf8ByteSlice_after_found (cs : List Char) (c₁ : Char) (i : Nat)
    (h₁ : utf8Find c₁ cs = some i) (hsz : c₁.utf8Size = 1) :
    utf8ByteSlice cs (i + 1) (utf8Len cs) ≠ none := by
  obtain ⟨r1, hr1⟩ := utf8Find_drop c₁ cs i h₁
  have hdrop1 : utf8DropBytes (i + 1) cs = some r1 := by
    rw [utf8DropBytes_add i 1 cs (c₁ :: r1) hr1, utf8DropBytes_succ_cons,
      if_pos (by omega)]
    simp [hsz, utf8DropBytes]
  have hlen : utf8Len cs = i + (c₁.utf8Size + utf8Len r1) := by
    have h2 := utf8DropBytes_len i cs (c₁ :: r1) hr1
    rwa [utf8Len_cons] at h2
  rw [utf8ByteSlice, if_pos (by omega), hdrop1]
  have h3 : utf8Len cs - (i + 1) = utf8Len r1 := by omega
  simpa [h3] using utf8TakeBytes_of_drop _ _ _ (utf8DropBytes_full r1)

/-- The prefix slice up to a found byte offset always succeeds. -/
theorem utf8ByteSlice_to_found (cs : List Char) (c₁ : Char) (m : Nat)
    (h₁ : utf8Find c₁ cs = some m) :
    utf8ByteSlice cs 0 m ≠ none := by
  obtain ⟨r, hr⟩ := utf8Find_drop c₁ cs m h₁
  rw [utf8ByteSlice, if_pos (Nat.zero_le m), utf8DropBytes_zero]
  simpa using utf8TakeBytes_of_drop _ _ _ hr

/-! ## C5: what a successful identification parse guarantees -/

/-- **C5 (counterexample).** On `"/MKS5<>ADM(M)"` (adjacent `<>` markers)
`parse_identification` succeeds with an *empty* `generation` field, so not
every field of a returned identity is non-empty. -/
theorem C5_counterexample :
    ∃ id, parse_identification ("/MKS5<>ADM(M)".toList) = .ok (some id) ∧
      id.generation = [] :=
  ⟨{ manufacturer := "MKS".toList
     baud_char := '5'
     generation := []
     edas_id := "ADM".toList
     model := "M".toList
     max_baud_rate := 9600 }, by decide, rfl⟩

/-- Every rate produced by `baud_rate_from_char` is one of the supported
rates 300..19200. -/
theorem baud_rate_from_char_supported (c : Char) (r : Nat)
    (h : baud_rate_from_char c = some r) :
    r ∈ [300, 600, 1200, 2400, 4800, 9600, 19200] := by
  unfold baud_rate_from_char at h
  split at h <;> simp_all

/-- **C5 (amended).** If `parse_identification` returns an identity, the
manufacturer field is non-empty (the three-byte prefix) and `baud_char`
decodes to one of the supported rates 300..19200; the `generation`,
`edas_id` and `model` fields may be empty (see `C5_counterexample`). -/
theorem C5_amended (response : List Char) (id : MeterIdent)
    (h : parse_identification response = .ok (some id)) :
    id.manufacturer ≠ [] ∧
    ∃ r, baud_rate_from_char id.baud_char = some r ∧
      r ∈ [300, 600, 1200, 2400, 4800, 9600, 19200] := by
  rw [parse_identification] at h
  by_cases h0 : response.head? = some '/'
  · rw [if_pos h0] at h
    dsimp only at h
    by_cases h1 : utf8Len (identContent response) < 4
    · rw [if_pos h1] at h
      exact absurd h (by simp)
    · rw [if_neg h1] at h
      split at h
      · exact absurd h (by simp)
      next manufacturer hman =>
        split at h
        · exact absurd h (by simp)
        next baud_char hb3 =>
          split at h
          · exact absurd h (by simp)
          next max_baud hbr =>
            split at h
            · exact absurd h (by simp)
            next gen_start hgs =>
              split at h
              · exact absurd h (by simp)
              next gen_end hge =>
                split at h
                · exact absurd h (by simp)
                next generation hgen =>
                  split at h
                  · exact absurd h (by simp)
                  next after_gen hag =>
                    split at h
                    · exact absurd h (by simp)
                    next model_start hms =>
                      split at h
                      · exact absurd h (by simp)
                      next edas_id hed =>
                        split at h
                        · exact absurd h (by simp)
                        next model_end hme =>
                          split at h
                          · exact absurd h (by simp)
                          next model hmo =>
                            simp only [ParseIdentResult.ok.injEq,
                              Option.some.injEq] at h
                            subst h
                            refine ⟨?_, max_baud, hbr,
                              baud_rate_from_char_supported _ _ hbr⟩
                            rw [utf8ByteSlice, if_pos (by omega),
                              utf8DropBytes_zero] at hman
                            simp only [Option.some_bind, Nat.sub_zero] at hman
                            exact utf8TakeBytes_ne_nil 3 (by omega) _ _ hman
  · rw [if_neg h0] at h
    exact absurd h (by simp)

/-- Witness for `C5_amended` at the spec's S1 scenario string. -/
theorem C5_amended_witness :
    ({ manufacturer := "MKS".toList
       baud_char := '5'
       generation := "2".toList
       edas_id := "ADM".toList
       model := "M550.2251".toList
       max_baud_rate := 9600 } : MeterIdent).manufacturer ≠ [] ∧
    ∃ r, baud_rate_from_char
        ({ manufacturer := "MKS".toList
           baud_char := '5'
           generation := "2".toList
           edas_id := "ADM".toList
           model := "M550.2251".toList
           max_baud_rate := 9600 } : MeterIdent).baud_char = some r ∧
      r ∈ [300, 600, 1200, 2400, 4800, 9600, 19200] :=
  C5_amended ("/MKS5<2>ADM(M550.2251)\r\n".toList) _ (by decide)

/-! ## C10: totality of parse_identification -/

/-- **C10 (counterexample).** `parse_identification` is not total: it
panics on `"/ABC5<2>X)Y(Z)"` — the first `')'` after the generation marker
precedes the first `'('`, so `&after_gen[model_start + 1..model_end]` has
inverted bounds — and it panics on the non-ASCII input `"/àà5<2>A(B)"`,
where `content[..3]` is cut at byte 3, inside the second two-byte `'à'`
(not a character boundary). -/
theorem C10_counterexample :
    parse_identification ("/ABC5<2>X)Y(Z)".toList) = .panicked ∧
    parse_identification ("/àà5<2>A(B)".toList) = .panicked := by
  constructor <;> decide

/-- **C10 (amended).** `parse_identification` returns an identity or
nothing for every input except where a Rust byte slice fails: it panics
exactly at three sites — when byte index 3 of the content is not a
character boundary (multi-byte UTF-8 among the first bytes), when the
first `'>'` precedes the first `'<'` (inverted generation slice), and when,
in the segment after the first `'>'`, the first `')'` precedes the first
`'('` (inverted model slice).  Every panic is of one of these three
shapes. -/
theorem C10_amended (response : List Char)
    (h : parse_identification response = .panicked) :
    isUtf8Boundary (identContent response) 3 = false ∨
    (∃ i j, utf8Find '<' (identContent response) = some i ∧
        utf8Find '>' (identContent response) = some j ∧ j < i + 1) ∨
    (∃ i j, utf8Find '(' (identAfterGen response) = some i ∧
        utf8Find ')' (identAfterGen response) = some j ∧ j < i + 1) := by
  rw [parse_identification] at h
  by_cases h0 : response.head? = some '/'
  · rw [if_pos h0] at h
    dsimp only at h
    by_cases h1 : utf8Len (identContent response) < 4
    · rw [if_pos h1] at h
      exact absurd h (by simp)
    · rw [if_neg h1] at h
      split at h
      next hman =>
        refine Or.inl ?_
        rw [utf8ByteSlice, if_pos (by omega), utf8DropBytes_zero] at hman
        simp only [Option.some_bind, Nat.sub_zero] at hman
        cases hdrop : utf8DropBytes 3 (identContent response) with
        | none => simp [isUtf8Boundary, hdrop]
        | some t =>
          obtain ⟨p, hp, _, _⟩ := utf8DropBytes_spec _ _ _ hdrop
          rw [hman] at hp
          exact absurd hp (by simp)
      next manufacturer hman =>
        split at h
        · exact absurd h (by simp)
        next baud_char hb3 =>
          split at h
          · exact absurd h (by simp)
          next max_baud hbr =>
            split at h
            · exact absurd h (by simp)
            next gen_start hgs =>
              split at h
              · exact absurd h (by simp)
              next gen_end hge =>
                split at h
                next hgen =>
                  by_cases hij : gen_start + 1 ≤ gen_end
                  · exact absurd hgen (utf8ByteSlice_between_found _ '<' '>' _ _
                      hgs hge (by decide) hij)
                  · exact Or.inr (Or.inl ⟨gen_start, gen_end, hgs, hge, by omega⟩)
                next generation hgen =>
                  split at h
                  next hag =>
                    exact absurd hag (utf8ByteSlice_after_found _ '>' _ hge (by decide))
                  next after_gen hag =>
                    have hagid : identAfterGen response = after_gen := by
                      simp only [identAfterGen, hge, hag, Option.getD_some]
                    split at h
                    · exact absurd h (by simp)
                    next model_start hms =>
                      split at h
                      next hed =>
                        exact absurd hed (utf8ByteSlice_to_found _ '(' _ hms)
                      next edas_id hed =>
                        split at h
                        · exact absurd h (by simp)
                        next model_end hme =>
                          split at h
                          next hmo =>
                            by_cases hij : model_start + 1 ≤ model_end
                            · exact absurd hmo (utf8ByteSlice_between_found _
                                '(' ')' _ _ hms hme (by decide) hij)
                            · refine Or.inr (Or.inr ⟨model_start, model_end, ?_, ?_, by omega⟩)
                              · rw [hagid]
                                exact hms
                              · rw [hagid]
                                exact hme
                          next model hmo =>
                            exact absurd h (by simp)
  · rw [if_neg h0] at h
    exact absurd h (by simp)

/-- Witness for `C10_amended`, applied at both panicking inputs: the
inverted-slice input `"/ABC5<2>X)Y(Z)"` and the non-boundary input
`"/àà5<2>A(B)"`. -/
theorem C10_amended_witness :
    (isUtf8Boundary (identContent ("/ABC5<2>X)Y(Z)".toList)) 3 = false ∨
     (∃ i j, utf8Find '<' (identContent ("/ABC5<2>X)Y(Z)".toList)) = some i ∧
         utf8Find '>' (identContent ("/ABC5<2>X)Y(Z)".toList)) = some j ∧ j < i + 1) ∨
     (∃ i j, utf8Find '(' (identAfterGen ("/ABC5<2>X)Y(Z)".toList)) = some i ∧
         utf8Find ')' (identAfterGen ("/ABC5<2>X)Y(Z)".toList)) = some j ∧ j < i + 1)) ∧
    (isUtf8Boundary (identContent ("/àà5<2>A(B)".toList)) 3 = false ∨
     (∃ i j, utf8Find '<' (identContent ("/àà5<2>A(B)".toList)) = some i ∧
         utf8Find '>' (identContent ("/àà5<2>A(B)".toList)) = some j ∧ j < i + 1) ∨
     (∃ i j, utf8Find '(' (identAfterGen ("/àà5<2>A(B)".toList)) = some i ∧
         utf8Find ')' (identAfterGen ("/àà5<2>A(B)".toList)) = some j ∧ j < i + 1)) :=
  ⟨C10_amended ("/ABC5<2>X)Y(Z)".toList) (by decide),
   C10_amended ("/àà5<2>A(B)".toList) (by decide)⟩

/-! ## C1: the port-none session invariant -/

/-- Every facade transition preserves the strengthened session invariant. -/
theorem strongSessionInvariant_step (s : ConnState) (op : FacadeOp)
    (h : strongSessionInvariant s) :
    strongSessionInvariant (applyFacadeOp s op) := by
  obtain ⟨po, pa, idb, co, ip, nb⟩ := s
  obtain ⟨h1, h2⟩ := h
  cases op with
  | connectF o t =>
    cases o <;> cases po <;> cases co <;> cases ip <;> cases pa <;>
      simp_all [applyFacadeOp, connectOp, ConnState.isConn, ConnState.disconnectAll,
        ConnState.initial, strongSessionInvariant, portNoneInvariant]
  | disconnectF =>
    simp_all [applyFacadeOp, disconnectOp, ConnState.disconnectAll,
      ConnState.initial, strongSessionInvariant, portNoneInvariant]
  | readFullF o =>
    cases o <;> by_cases hnb : nb > 0 <;> cases po <;> cases co <;> cases ip <;>
        cases pa <;>
      simp_all [applyFacadeOp, readFullOp, ConnState.disconnectAll,
        ConnState.initial, strongSessionInvariant, portNoneInvariant]
  | readShortF o =>
    cases o <;> cases pa <;>
      simp_all [applyFacadeOp, readShortOp, ConnState.disconnectAll,
        ConnState.initial, strongSessionInvariant, portNoneInvariant]
  | readObisBatchF e o =>
    cases e <;> cases o <;> cases pa <;>
      simp_all [applyFacadeOp, readObisBatchOp, ConnState.disconnectAll,
        ConnState.initial, strongSessionInvariant, portNoneInvariant]
  | authenticateF v o t =>
    cases v <;> cases o <;> cases pa <;>
      simp_all [applyFacadeOp, authenticateOp, ConnState.disconnectAll,
        ConnState.initial, strongSessionInvariant, portNoneInvariant]
  | endSessionF =>
    cases co <;> cases po <;> cases ip <;>
      simp_all [applyFacadeOp, endSessionOp, strongSessionInvariant,
        portNoneInvariant]
  | readLoadProfileF o =>
    cases o <;> cases pa <;>
      simp_all [applyFacadeOp, readLoadProfileOp, ConnState.disconnectAll,
        ConnState.initial, strongSessionInvariant, portNoneInvariant]

/-- **C1.** After every sequence of facade operations (connect, disconnect,
read_full, read_short, read_obis_batch, authenticate, end_session,
read_load_profile), the stored session state satisfies: whenever the port
is none, `connected` is false and `in_programming_mode` is false. -/
theorem C1_session_invariant (ops : List FacadeOp)
    (h : (runFacadeOps ops).portOpen = false) :
    (runFacadeOps ops).connected = false ∧
    (runFacadeOps ops).inProgrammingMode = false := by
  have main : ∀ (l : List FacadeOp) (s : ConnState), strongSessionInvariant s →
      strongSessionInvariant (l.foldl applyFacadeOp s) := by
    intro l
    induction l with
    | nil => intro s hs; exact hs
    | cons op rest ih =>
      intro s hs
      exact ih _ (strongSessionInvariant_step s op hs)
  have h0 : strongSessionInvariant ConnState.initial := by
    constructor
    · intro _
      exact ⟨rfl, rfl⟩
    · intro hip
      exact absurd hip (by decide)
  exact (main ops ConnState.initial h0).1 h

/-- Witness for `C1_session_invariant` on the operation sequence
[connect (ok), authenticate (ok), end_session]. -/
theorem C1_session_invariant_witness :
    (runFacadeOps [.connectF .succeeded 9600, .authenticateF true .succeeded 9600,
      .endSessionF]).connected = false ∧
    (runFacadeOps [.connectF .succeeded 9600, .authenticateF true .succeeded 9600,
      .endSessionF]).inProgrammingMode = false :=
  C1_session_invariant _ (by decide)

/-! ## C6: outcome dispatch on the password response -/

/-- **C6.** After the password frame is sent, the first response byte
decides the outcome: ACK authenticates and the port is stored back in
programming mode; NAK rejects (`Ok(false)`, the `AuthRejected` report) and
the port is dropped; SOH followed by `"B0"` is the meter-initiated break,
rejected with the meter-locked note; any other first byte is the
protocol error naming that byte; an empty read and a timed-out read are the
no-response (`AuthTimeout`) errors. -/
theorem C6_auth_response_dispatch (b : Nat) (tail : List Nat) (s : ConnState)
    (t : Nat) (hparams : s.hasParams = true) :
    (authRespond (.recv ACK tail) = .authenticated ∧
      authPortRetained (.recv ACK tail) = true ∧
      (authenticateOp s true .succeeded t).portOpen = true ∧
      (authenticateOp s true .succeeded t).inProgrammingMode = true ∧
      (authenticateOp s true .succeeded t).connected = true) ∧
    (authRespond (.recv NAK tail) = .rejectedNak ∧
      authPortRetained (.recv NAK tail) = false ∧
      (authenticateOp s true .failed t).portOpen = false ∧
      (authenticateOp s true .failed t).inProgrammingMode = false) ∧
    (containsB0 tail = true →
      authRespond (.recv SOH tail) = .rejectedBreakLocked ∧
      authPortRetained (.recv SOH tail) = false) ∧
    (b ≠ ACK → b ≠ NAK → b ≠ SOH →
      authRespond (.recv b tail) = .protocolError b ∧
      authPortRetained (.recv b tail) = false) ∧
    (authRespond .emptyRead = .emptyResponse ∧
      authRespond .timedOut = .timeoutResponse ∧
      authPortRetained .emptyRead = false ∧
      authPortRetained .timedOut = false) := by
  refine ⟨?_, ?_, ?_, ?_, ?_⟩
  · refine ⟨by simp [authRespond], by simp [authPortRetained, authRespond], ?_, ?_, ?_⟩ <;>
      simp [authenticateOp, hparams]
  · refine ⟨by simp [authRespond, NAK, ACK], by simp [authPortRetained, authRespond, NAK, ACK],
      ?_, ?_⟩ <;> simp [authenticateOp, hparams, ConnState.disconnectAll, ConnState.initial]
  · intro hb
    constructor
    · simp [authRespond, SOH, ACK, NAK, hb]
    · simp [authPortRetained, authRespond, SOH, ACK, NAK, hb]
  · intro hb1 hb2 hb3
    constructor
    · simp [authRespond, hb1, hb2, hb3]
    · simp [authPortRetained, authRespond, hb1, hb2, hb3]
  · exact ⟨rfl, rfl, rfl, rfl⟩

/-- Witness for `C6_auth_response_dispatch`: the SOH + "B0" break case and
the unexpected-byte case at `b = 0x42`, discharged concretely. -/
theorem C6_auth_response_dispatch_witness :
    (authRespond (.recv SOH [0x42, 0x30]) = .rejectedBreakLocked ∧
      authPortRetained (.recv SOH [0x42, 0x30]) = false) ∧
    (authRespond (.recv 0x42 []) = .protocolError 0x42 ∧
      authPortRetained (.recv 0x42 []) = false) :=
  ⟨(C6_auth_response_dispatch 0x42 [0x42, 0x30]
      { ConnState.initial with hasParams := true } 9600 rfl).2.2.1 (by decide),
   (C6_auth_response_dispatch 0x42 []
      { ConnState.initial with hasParams := true } 9600 rfl).2.2.2.1
      (by decide) (by decide) (by decide)⟩

/-! ## C9: the three time-sync writes -/

/-- **C9.** `sync_time` requires programming mode (otherwise it fails with
no write issued) and, in programming mode, issues exactly the writes
`0.9.1 ← HH:MM:SS`, then `0.9.2 ← yy-mm-dd`, then `0.9.5 ← ISO day of week
(1 = Monday)`, in that order; the first write that is not ACKed makes the
operation fail and the remaining writes are not attempted; the operation
succeeds exactly when all three are ACKed. -/
theorem C9_sync_time_writes (s : ConnState) (t : NowTime)
    (r1 r2 r3 : WriteResponse) :
    (s.inProgrammingMode = false → sync_time_model s t r1 r2 r3 = ([], false)) ∧
    (s.connected = true → s.inProgrammingMode = true → s.portOpen = true →
      sync_time_model s t r1 r2 r3 =
        if r1 ≠ .ackByte then ([("0.9.1".toList, fmtTime t)], false)
        else if r2 ≠ .ackByte then
          ([("0.9.1".toList, fmtTime t), ("0.9.2".toList, fmtDate t)], false)
        else if r3 ≠ .ackByte then
          ([("0.9.1".toList, fmtTime t), ("0.9.2".toList, fmtDate t),
            ("0.9.5".toList, fmtDow t)], false)
        else
          ([("0.9.1".toList, fmtTime t), ("0.9.2".toList, fmtDate t),
            ("0.9.5".toList, fmtDow t)], true)) := by
  constructor
  · intro hp
    rw [sync_time_model]
    by_cases hc : s.connected = false
    · rw [if_pos hc]
    · rw [if_neg hc, if_pos hp]
  · intro hc hp hport
    rw [sync_time_model]
    rw [if_neg (by simp [hc]), if_neg (by simp [hp])]
    cases r1 <;> cases r2 <;> cases r3 <;>
      simp [write_obis_model, hc, hp, hport]

/-- Witness for `C9_sync_time_writes`: outside programming mode nothing is
written, and with responses ACK, NAK the operation stops after the second
write. -/
theorem C9_sync_time_writes_witness :
    (sync_time_model ConnState.initial ⟨2025, 10, 12, 13, 45, 7, 7⟩
      .ackByte .nakByte .ackByte = ([], false)) ∧
    (sync_time_model
        { ConnState.initial with
            portOpen := true
            connected := true
            inProgrammingMode := true }
        ⟨2025, 10, 12, 13, 45, 7, 7⟩ .ackByte .nakByte .ackByte =
      ([("0.9.1".toList, fmtTime ⟨2025, 10, 12, 13, 45, 7, 7⟩),
        ("0.9.2".toList, fmtDate ⟨2025, 10, 12, 13, 45, 7, 7⟩)], false)) := by
  constructor
  · exact (C9_sync_time_writes ConnState.initial ⟨2025, 10, 12, 13, 45, 7, 7⟩
      .ackByte .nakByte .ackByte).1 rfl
  · have h := (C9_sync_time_writes
      { ConnState.initial with
          portOpen := true
          connected := true
          inProgrammingMode := true }
      ⟨2025, 10, 12, 13, 45, 7, 7⟩ .ackByte .nakByte .ackByte).2 rfl rfl rfl
    rw [h]
    decide

end OmniMeter
